import Mathlib

/-! Users-gestion-challenge: record store, user service and HTTP API.

A shallow embedding of `src/utils/fileUtils.js`, `src/controllers/userController.js`
and the `/api/users` handlers of `src/index.js`.

Modelling conventions.

* A user record is an object with the four fields `id`, `nom`, `email`, `role`.
  Ids are JavaScript numbers holding integers; they are modelled as `Int`, which is
  exact on the safe-integer range of a JavaScript number.
* The backing file `data/users.json` is a value of `FileContent`; whether
  `fs.writeFileSync` succeeds is the flag `Store.writable`.  Every function that
  touches the file takes the store and returns the store it leaves behind.
* `throw new Error(msg)` is `Except.error msg`; `try { .. } catch { .. }` is a
  `match` on the `Except` value.
-/

namespace UsersGestion

/-! ## Data model -/

/-- A user record as stored in `users.json`. -/
structure User where
  id : Int
  nom : String
  email : String
  role : String
  deriving DecidableEq, Repr

/-- What `data/users.json` holds, as far as `readUsersFile` can tell. -/
inductive FileContent where
  /-- `fs.existsSync` is false -/
  | missing
  /-- the file exists and `JSON.parse` throws on its content -/
  | unparsable
  /-- the content parses to something that is not an array -/
  | notArray
  /-- the content parses to an array of user records -/
  | users (us : List User)
  deriving DecidableEq, Repr

/-- The file system as seen by the record store. -/
structure Store where
  file : FileContent
  /-- whether `fs.writeFileSync` (and `mkdirSync`) succeed -/
  writable : Bool
  deriving DecidableEq, Repr

/-- The message of a thrown `Error`. -/
abbrev JsError := String

/-! ## `src/utils/fileUtils.js` -/

/-- The `defaultUsers` literal of `readUsersFile`. -/
def defaultUsers : List User :=
  [ ⟨1, "Jean Dupont", "jean.dupont@email.com", "admin"⟩,
    ⟨2, "Marie Martin", "marie.martin@email.com", "modérateur"⟩,
    ⟨3, "Pierre Durand", "pierre.durand@email.com", "utilisateur"⟩,
    ⟨4, "Sophie Bernard", "sophie.bernard@email.com", "utilisateur"⟩,
    ⟨5, "Lucas Petit", "lucas.petit@email.com", "utilisateur"⟩,
    ⟨6, "Emma Roux", "emma.roux@email.com", "utilisateur"⟩,
    ⟨7, "Thomas Moreau", "thomas.moreau@email.com", "utilisateur"⟩,
    ⟨8, "Julie Simon", "julie.simon@email.com", "utilisateur"⟩,
    ⟨9, "Nicolas Michel", "nicolas.michel@email.com", "utilisateur"⟩,
    ⟨10, "Camille Garcia", "camille.garcia@email.com", "utilisateur"⟩ ]

/-- `writeUsersFile(users)`: the argument is an array by typing, so the only failure is
the write itself; every failure is rethrown as the one fixed `Error`. -/
def writeUsersFile (s : Store) (users : List User) : Except JsError Unit × Store :=
  if s.writable then
    (.ok (), { s with file := .users users })
  else
    (.error "Impossible de sauvegarder les utilisateurs", s)

/-- The `try` block of `readUsersFile`. -/
def readUsersFileTry (s : Store) : Except JsError (List User) × Store :=
  match s.file with
  | .missing =>
    match writeUsersFile s defaultUsers with
    | (.ok _, s1) => (.ok defaultUsers, s1)
    | (.error e, s1) => (.error e, s1)
  | .unparsable => (.error "SyntaxError", s)
  | .notArray => (.ok [], s)
  | .users us => (.ok us, s)

/-- `readUsersFile()`: the `catch` block turns every failure into `[]`. -/
def readUsersFile (s : Store) : List User × Store :=
  match readUsersFileTry s with
  | (.ok us, s1) => (us, s1)
  | (.error _, s1) => ([], s1)

/-- `Math.max(x, ...xs)` on a non-empty argument list. -/
def mathMax (x : Int) (xs : List Int) : Int :=
  xs.foldl max x

/-- `generateNewId(users)`; `none` is an absent (`undefined`/`null`) argument. -/
def generateNewId : Option (List User) → Int
  | none => 1
  | some [] => 1
  | some (u :: us) => mathMax u.id (us.map (fun user => user.id)) + 1

/-! ## `src/controllers/userController.js` -/

/-- The `userData` / `updateData` argument: `{ nom, email }`. -/
structure UserData where
  nom : String
  email : String
  deriving DecidableEq, Repr

/-- `getAllUsers()`; `readUsersFile` does not throw, so the `catch` is not entered. -/
def getAllUsers (s : Store) : List User × Store :=
  readUsersFile s

/-- `getUserById(id)`: `users.find(user => user.id === id) || null`. -/
def getUserById (s : Store) (id : Int) : Option User × Store :=
  let (users, s1) := readUsersFile s
  (users.find? (fun user => user.id == id), s1)

/-- `createUser(userData)`. -/
def createUser (s : Store) (userData : UserData) : Except JsError User × Store :=
  let (users, s1) := readUsersFile s
  let newUser : User :=
    { id := generateNewId (some users)
      nom := userData.nom
      email := userData.email
      role := "utilisateur" }
  match writeUsersFile s1 (users ++ [newUser]) with
  | (.ok _, s2) => (.ok newUser, s2)
  | (.error _, s2) => (.error "Impossible de créer l\x27utilisateur", s2)

/-- `Array.prototype.findIndex`; `none` is the result `-1`. -/
def findIndex (p : User → Bool) : List User → Option Nat
  | [] => none
  | u :: us => if p u then some 0 else (findIndex p us).map (· + 1)

/-- `updateUser(id, updateData)`.  The `throw` for an unknown id sits inside the `try`,
so the `catch` replaces it, like a failed write, by the one fixed `Error`. -/
def updateUser (s : Store) (id : Int) (updateData : UserData) : Except JsError User × Store :=
  let (users, s1) := readUsersFile s
  let body : Except JsError User × Store :=
    match findIndex (fun user => user.id == id) users with
    | none => (.error "Utilisateur non trouvé", s1)
    | some userIndex =>
      match users.get? userIndex with
      | none => (.error "TypeError", s1) -- not reached: `findIndex` answers an index of the array
      | some old =>
        let updated : User := { old with nom := updateData.nom, email := updateData.email }
        match writeUsersFile s1 (users.set userIndex updated) with
        | (.ok _, s2) => (.ok updated, s2)
        | (.error e, s2) => (.error e, s2)
  match body with
  | (.ok u, s2) => (.ok u, s2)
  | (.error _, s2) => (.error "Impossible de modifier l\x27utilisateur", s2)

/-- `deleteUser(id)`: an unknown id and a failed write both give `false`. -/
def deleteUser (s : Store) (id : Int) : Bool × Store :=
  let (users, s1) := readUsersFile s
  match findIndex (fun user => user.id == id) users with
  | none => (false, s1)
  | some userIndex =>
    match writeUsersFile s1 (users.eraseIdx userIndex) with
    | (.ok _, s2) => (true, s2)
    | (.error _, s2) => (false, s2)

/-! ## The email pattern `/^[^\s@]+@[^\s@]+\.[^\s@]+$/` -/

/-- A piece of an anchored pattern: `[..]+` over a character class, or one literal character. -/
inductive Item where
  | oneOrMore (cls : Char → Bool)
  | lit (c : Char)

/-- The class `\s` of an ECMAScript regular expression (white space and line terminators). -/
def isWhiteSpace (c : Char) : Bool :=
  let n := c.toNat
  n == 0x09 || n == 0x0A || n == 0x0B || n == 0x0C || n == 0x0D || n == 0x20 ||
  n == 0xA0 || n == 0x1680 || (0x2000 ≤ n && n ≤ 0x200A) || n == 0x2028 || n == 0x2029 ||
  n == 0x202F || n == 0x205F || n == 0x3000 || n == 0xFEFF

/-- The class `[^\s@]`. -/
def notSpaceNorAt (c : Char) : Bool :=
  !(isWhiteSpace c || c == '@')

/-- The pattern between `^` and `$`. -/
def emailRegex : List Item :=
  [.oneOrMore notSpaceNorAt, .lit '@', .oneOrMore notSpaceNorAt, .lit '.', .oneOrMore notSpaceNorAt]

/-- Backtracking match of the whole input against the pieces (`^ .. $`). -/
def matchAll : List Char → List Item → Bool
  | [], [] => true
  | [], _ :: _ => false
  | _ :: _, [] => false
  | d :: ds, .lit c :: rest => d == c && matchAll ds rest
  | d :: ds, .oneOrMore cls :: rest =>
    cls d && (matchAll ds (.oneOrMore cls :: rest) || matchAll ds rest)

/-- `re.test(str)` for an anchored pattern.  The input is read character by character; a
character outside the basic plane is two code units in JavaScript, both of them inside
`[^\s@]` and neither `@` nor `.`, so the answer is the same. -/
def regexTest (re : List Item) (str : String) : Bool :=
  matchAll str.toList re

/-- `String.prototype.trim`. -/
def jsTrim (str : String) : List Char :=
  ((str.toList.dropWhile isWhiteSpace).reverse.dropWhile isWhiteSpace).reverse

/-- The value returned by `validateField(input, ..)` of `public/js/app.js` when
`input.type === 'email'` and `input.value` is `value`. -/
def validateFieldEmail (value : String) : Bool :=
  let isValid := jsTrim value != []
  let isValidEmail := regexTest emailRegex value
  if !isValid || !isValidEmail then false else true

/-! ## `src/index.js`: the `/api/users` handlers -/

/-- The JSON body of a response. -/
inductive Payload where
  | message (m : String)
  | user (u : User)
  | users (us : List User)
  deriving DecidableEq, Repr

/-- Status code and JSON body of a response. -/
structure Response where
  status : Nat
  body : Payload
  deriving DecidableEq, Repr

/-- The parsed request body: the fields `nom` and `email` (absent or a string) and
every other field it carries. -/
structure Body where
  nom : Option String
  email : Option String
  others : List (String × String) := []
  deriving DecidableEq, Repr

/-- `!v` for a field that is absent or a string. -/
def falsy : Option String → Bool
  | none => true
  | some v => v == ""

/-- `GET /api/users`. -/
def apiGetUsers (s : Store) : Response × Store :=
  let (users, s1) := getAllUsers s
  (⟨200, .users users⟩, s1)

/-- `GET /api/users/:id`, with `userId = parseInt(req.params.id)`. -/
def apiGetUser (s : Store) (userId : Int) : Response × Store :=
  match getUserById s userId with
  | (none, s1) => (⟨404, .message "Utilisateur non trouvé"⟩, s1)
  | (some user, s1) => (⟨200, .user user⟩, s1)

/-- `POST /api/users`. -/
def apiPostUser (s : Store) (body : Body) : Response × Store :=
  if falsy body.nom || falsy body.email then
    (⟨400, .message "Le nom et l\x27email sont requis"⟩, s)
  else
    let nom := body.nom.getD ""
    let email := body.email.getD ""
    if !regexTest emailRegex email then
      (⟨400, .message "Format d\x27email invalide"⟩, s)
    else
      let (users, s1) := getAllUsers s
      match users.find? (fun user => user.email == email) with
      | some _ => (⟨409, .message "Un utilisateur avec cet email existe déjà"⟩, s1)
      | none =>
        match createUser s1 ⟨nom, email⟩ with
        | (.ok newUser, s2) => (⟨201, .user newUser⟩, s2)
        | (.error _, s2) => (⟨500, .message "Erreur interne du serveur"⟩, s2)

/-- `PUT /api/users/:id`, with `userId = parseInt(req.params.id)`. -/
def apiPutUser (s : Store) (userId : Int) (body : Body) : Response × Store :=
  if falsy body.nom || falsy body.email then
    (⟨400, .message "Le nom et l\x27email sont requis"⟩, s)
  else
    let nom := body.nom.getD ""
    let email := body.email.getD ""
    if !regexTest emailRegex email then
      (⟨400, .message "Format d\x27email invalide"⟩, s)
    else
      match getUserById s userId with
      | (none, s1) => (⟨404, .message "Utilisateur non trouvé"⟩, s1)
      | (some _, s1) =>
        let (users, s2) := getAllUsers s1
        match users.find? (fun user => user.email == email && user.id != userId) with
        | some _ => (⟨409, .message "Un autre utilisateur utilise déjà cet email"⟩, s2)
        | none =>
          match updateUser s2 userId ⟨nom, email⟩ with
          | (.ok updatedUser, s3) => (⟨200, .user updatedUser⟩, s3)
          | (.error _, s3) => (⟨500, .message "Erreur interne du serveur"⟩, s3)

/-- `DELETE /api/users/:id`, with `userId = parseInt(req.params.id)`. -/
def apiDeleteUser (s : Store) (userId : Int) : Response × Store :=
  match getUserById s userId with
  | (none, s1) => (⟨404, .message "Utilisateur non trouvé"⟩, s1)
  | (some _, s1) =>
    match deleteUser s1 userId with
    | (true, s2) => (⟨200, .message "Utilisateur supprimé avec succès"⟩, s2)
    | (false, s2) => (⟨500, .message "Erreur lors de la suppression"⟩, s2)

/-- A request that changes the store. -/
inductive ApiOp where
  | post (body : Body)
  | put (userId : Int) (body : Body)
  | delete (userId : Int)
  deriving DecidableEq, Repr

/-- The router: one request, handled by its handler. -/
def apiStep (s : Store) : ApiOp → Response × Store
  | .post body => apiPostUser s body
  | .put userId body => apiPutUser s userId body
  | .delete userId => apiDeleteUser s userId

/-- Requests handled one after the other, each on the store its predecessor left; the
flag paired with a request says whether the file can be written while it is handled. -/
def apiRun (s : Store) : List (Bool × ApiOp) → Store
  | [] => s
  | (w, op) :: rest => apiRun (apiStep { s with writable := w } op).2 rest

/-- Ids pairwise distinct. -/
def idsDistinct (us : List User) : Prop :=
  us.Pairwise (fun a b => a.id ≠ b.id)

/-- Emails pairwise distinct. -/
def emailsDistinct (us : List User) : Prop :=
  us.Pairwise (fun a b => a.email ≠ b.email)

instance (us : List User) : Decidable (idsDistinct us) := by
  unfold idsDistinct; infer_instance

instance (us : List User) : Decidable (emailsDistinct us) := by
  unfold emailsDistinct; infer_instance

/-! ## Files that are not arrays of records -/

/-- A file of zero bytes: it exists, `readFileSync` gives `''`, and `JSON.parse('')`
throws a `SyntaxError`. -/
def emptyFile : FileContent := .unparsable

/-- An element of a parsed JSON array as the callback `user => user.id === id` meets it:
`null`, or an object. -/
inductive Elem where
  | null
  | record (u : User)
  deriving DecidableEq, Repr

/-- The `try` block of `getUserById` once `readUsersFile()` has returned the array `users`:
`users.find(user => user.id === id) || null`.  Reading `.id` of `null` throws. -/
def getUserByIdTry (id : Int) : List Elem → Except JsError (Option User)
  | [] => .ok none
  | .null :: _ => .error "TypeError"
  | .record user :: rest => if user.id == id then .ok (some user) else getUserByIdTry id rest

/-- The `try`/`catch` of `getUserById` on the array `users`: the `catch` returns `null`. -/
def getUserByIdOn (id : Int) (users : List Elem) : Option User :=
  match getUserByIdTry id users with
  | .ok found => found
  | .error _ => none

/-- The `try` block of `getAllUsers`: `return readUsersFile()`. -/
def getAllUsersTry (s : Store) : Except JsError (List User) × Store :=
  let (users, s1) := readUsersFile s
  (.ok users, s1)

/-! ## `src/public/js/home.js`: the user card -/

/-- A piece of the template literal of `createUserCard`. -/
inductive Piece where
  /-- literal text of the template -/
  | markup (text : String)
  /-- an interpolation `${e}`: the value is inserted as it is -/
  | plain (value : String)
  /-- an interpolation `${escapeHtml(e)}` -/
  | escaped (value : String)
  deriving DecidableEq, Repr

/-- `createUserCard(user)`, piece by piece; `toLowerCase` is `String.prototype.toLowerCase`. -/
def createUserCard (toLowerCase : String → String) (user : User) : List Piece :=
  [ .markup "\n        <div class=\"user-card\" onclick=\"viewUser(",
    .plain (toString user.id),
    .markup ")\">\n            <div class=\"user-name\">",
    .escaped user.nom,
    .markup "</div>\n            <div class=\"user-email\">",
    .escaped user.email,
    .markup "</div>\n            <div class=\"user-role role-",
    .plain (toLowerCase user.role),
    .markup "\">",
    .escaped user.role,
    .markup "</div>\n            <div class=\"actions\">\n                <button class=\"btn btn-small btn-edit\" onclick=\"event.stopPropagation(); editUser(",
    .plain (toString user.id),
    .markup ")\">\n                    Modifier\n                </button>\n                <button class=\"btn btn-small btn-delete\" onclick=\"event.stopPropagation(); deleteUser(",
    .plain (toString user.id),
    .markup ")\">\n                    Supprimer\n                </button>\n            </div>\n        </div>\n    " ]

/-- The string a list of pieces stands for, `escapeHtml` being the page's function. -/
def renderPieces (escapeHtml : String → String) : List Piece → String
  | [] => ""
  | .markup text :: rest => text ++ renderPieces escapeHtml rest
  | .plain value :: rest => value ++ renderPieces escapeHtml rest
  | .escaped value :: rest => escapeHtml value ++ renderPieces escapeHtml rest

/-- The values a card inserts through `escapeHtml`, in order. -/
def escapedValues : List Piece → List String
  | [] => []
  | .escaped value :: rest => value :: escapedValues rest
  | _ :: rest => escapedValues rest

/-- The values a card inserts without `escapeHtml`, in order. -/
def plainValues : List Piece → List String
  | [] => []
  | .plain value :: rest => value :: plainValues rest
  | _ :: rest => plainValues rest

/-! ## Auxiliary facts -/

theorem le_mathMax (x : Int) (xs : List Int) : x ≤ mathMax x xs := by
  unfold mathMax
  induction xs generalizing x with
  | nil => simp
  | cons y ys ih => exact le_trans (le_max_left x y) (ih (max x y))

theorem mem_le_mathMax (x : Int) (xs : List Int) : ∀ y ∈ xs, y ≤ mathMax x xs := by
  induction xs generalizing x with
  | nil => simp
  | cons z zs ih =>
    intro y hy
    rcases List.mem_cons.mp hy with rfl | hy
    · exact le_trans (le_max_right x y) (le_mathMax (max x y) zs)
    · exact ih (max x z) y hy

theorem mathMax_mem (x : Int) (xs : List Int) : mathMax x xs = x ∨ mathMax x xs ∈ xs := by
  induction xs generalizing x with
  | nil => simp [mathMax]
  | cons z zs ih =>
    have step : mathMax x (z :: zs) = mathMax (max x z) zs := rfl
    rw [step]
    rcases ih (max x z) with h | h
    · rcases max_choice x z with hm | hm
      · left; rw [h, hm]
      · right; rw [h, hm]; exact List.mem_cons_self _ _
    · right; exact List.mem_cons_of_mem _ h

/-- The generated id is the largest id of a non-empty collection, plus one. -/
theorem generateNewId_spec (us : List User) (hne : us ≠ []) :
    ∃ m : Int, (∃ u ∈ us, u.id = m) ∧ (∀ u ∈ us, u.id ≤ m) ∧
      generateNewId (some us) = m + 1 := by
  cases us with
  | nil => exact absurd rfl hne
  | cons u rest =>
    refine ⟨mathMax u.id (rest.map (fun user : User => user.id)), ?_, ?_, rfl⟩
    · rcases mathMax_mem u.id (rest.map (fun user : User => user.id)) with h | h
      · exact ⟨u, List.mem_cons_self _ _, h.symm⟩
      · obtain ⟨v, hv, hid⟩ := List.mem_map.mp h
        exact ⟨v, List.mem_cons_of_mem _ hv, hid⟩
    · intro v hv
      rcases List.mem_cons.mp hv with rfl | hv
      · exact le_mathMax _ _
      · exact mem_le_mathMax _ _ _ (List.mem_map.mpr ⟨v, hv, rfl⟩)

theorem lt_generateNewId (us : List User) : ∀ u ∈ us, u.id < generateNewId (some us) := by
  intro u hu
  have hne : us ≠ [] := List.ne_nil_of_mem hu
  obtain ⟨m, -, hle, heq⟩ := generateNewId_spec us hne
  rw [heq]
  exact Int.lt_add_one_iff.mpr (hle u hu)

theorem readUsersFile_users (s : Store) (us : List User) (h : s.file = .users us) :
    readUsersFile s = (us, s) := by
  simp [readUsersFile, readUsersFileTry, h]

/-- A read leaves the `writable` flag alone. -/
theorem readUsersFile_writable (s : Store) : (readUsersFile s).2.writable = s.writable := by
  unfold readUsersFile readUsersFileTry writeUsersFile
  cases hf : s.file <;> simp
  cases hw : s.writable <;> simp [hw]

theorem find?_append_new (us : List User) (r : User) (h : ∀ u ∈ us, u.id < r.id) :
    (us ++ [r]).find? (fun user => user.id == r.id) = some r := by
  induction us with
  | nil => simp
  | cons u rest ih =>
    have hu : (u.id == r.id) = false := by
      simpa using ne_of_lt (h u (List.mem_cons_self _ _))
    have := ih (fun v hv => h v (List.mem_cons_of_mem _ hv))
    simp [List.find?, hu, this]

/-- What a successful `createUser` returns and leaves behind. -/
theorem createUser_ok (s : Store) (d : UserData) (r : User) (s2 : Store)
    (h : createUser s d = (.ok r, s2)) :
    r = ⟨generateNewId (some (readUsersFile s).1), d.nom, d.email, "utilisateur"⟩ ∧
      s2 = ⟨.users ((readUsersFile s).1 ++ [r]), true⟩ := by
  unfold createUser writeUsersFile at h
  rcases hr : readUsersFile s with ⟨users, s1⟩
  rw [hr] at h
  cases hw : s1.writable <;> simp [hw] at h
  obtain ⟨h1, h2⟩ := h
  subst h1
  exact ⟨rfl, h2.symm⟩

theorem createUser_writable (s : Store) (d : UserData) (hw : s.writable = true) :
    createUser s d =
      (.ok ⟨generateNewId (some (readUsersFile s).1), d.nom, d.email, "utilisateur"⟩,
       ⟨.users ((readUsersFile s).1 ++
          [⟨generateNewId (some (readUsersFile s).1), d.nom, d.email, "utilisateur"⟩]), true⟩) := by
  have hw1 := readUsersFile_writable s
  unfold createUser writeUsersFile
  rcases hr : readUsersFile s with ⟨users, s1⟩
  rw [hr] at hw1
  simp at hw1
  simp [hw1, hw]

theorem findIndex_eq_none (p : User → Bool) (us : List User) :
    findIndex p us = none ↔ ∀ u ∈ us, p u = false := by
  induction us with
  | nil => simp [findIndex]
  | cons u rest ih =>
    cases hp : p u <;> simp [findIndex, hp, ih]

/-- An index answered by `findIndex` is the position of the first record satisfying `p`. -/
theorem findIndex_eq_some (p : User → Bool) (us : List User) (i : Nat)
    (h : findIndex p us = some i) :
    ∃ l1 u l2, us = l1 ++ u :: l2 ∧ l1.length = i ∧ p u = true ∧ ∀ v ∈ l1, p v = false := by
  induction us generalizing i with
  | nil => simp [findIndex] at h
  | cons a rest ih =>
    cases hp : p a
    · simp only [findIndex, hp, Bool.false_eq_true, if_false, Option.map_eq_some'] at h
      obtain ⟨j, hj, rfl⟩ := h
      obtain ⟨l1, u, l2, hus, hlen, hpu, hl1⟩ := ih j hj
      refine ⟨a :: l1, u, l2, by simp [hus], by simp [hlen], hpu, ?_⟩
      intro v hv
      rcases List.mem_cons.mp hv with rfl | hv
      · exact hp
      · exact hl1 v hv
    · simp only [findIndex, hp, if_true, Option.some.injEq] at h
      exact ⟨[], a, rest, rfl, by simp [← h], hp, by simp⟩

theorem get?_length_append (l1 l2 : List User) (u : User) :
    (l1 ++ u :: l2).get? l1.length = some u := by
  induction l1 with
  | nil => rfl
  | cons a rest ih => simpa using ih

theorem set_length_append (l1 l2 : List User) (u v : User) :
    (l1 ++ u :: l2).set l1.length v = l1 ++ v :: l2 := by
  induction l1 with
  | nil => rfl
  | cons a rest ih => simp

theorem eraseIdx_length_append (l1 l2 : List User) (u : User) :
    (l1 ++ u :: l2).eraseIdx l1.length = l1 ++ l2 := by
  induction l1 with
  | nil => rfl
  | cons a rest ih => simpa using ih

/-- The first record carrying `id`, when some record does. -/
theorem findIndex_id_known (us : List User) (id : Int) (h : ∃ u ∈ us, u.id = id) :
    ∃ l1 u l2, us = l1 ++ u :: l2 ∧ u.id = id ∧ (∀ v ∈ l1, v.id ≠ id) ∧
      findIndex (fun user => user.id == id) us = some l1.length := by
  cases hfi : findIndex (fun user => user.id == id) us with
  | none =>
    obtain ⟨u, hu, hid⟩ := h
    have := (findIndex_eq_none _ us).mp hfi u hu
    simp [hid] at this
  | some i =>
    obtain ⟨l1, u, l2, hus, hlen, hpu, hl1⟩ := findIndex_eq_some _ us i hfi
    refine ⟨l1, u, l2, hus, by simpa using hpu, ?_, by rw [hlen]⟩
    intro v hv
    simpa using hl1 v hv

theorem findIndex_id_unknown (us : List User) (id : Int) (h : ∀ u ∈ us, u.id ≠ id) :
    findIndex (fun user => user.id == id) us = none := by
  rw [findIndex_eq_none]
  intro u hu
  simpa using h u hu

theorem matchAll_nil (cs : List Char) : matchAll cs [] = true ↔ cs = [] := by
  cases cs <;> simp [matchAll]

theorem matchAll_lit (c : Char) (rest : List Item) (cs : List Char) :
    matchAll cs (.lit c :: rest) = true ↔ ∃ ds, cs = c :: ds ∧ matchAll ds rest = true := by
  cases cs with
  | nil => simp [matchAll]
  | cons d ds =>
    simp only [matchAll, Bool.and_eq_true, beq_iff_eq, List.cons.injEq]
    constructor
    · rintro ⟨rfl, h⟩
      exact ⟨ds, ⟨rfl, rfl⟩, h⟩
    · rintro ⟨es, ⟨rfl, rfl⟩, h⟩
      exact ⟨rfl, h⟩

/-- A `[..]+` piece consumes a non-empty prefix inside the class; the rest of the pattern
matches what remains. -/
theorem matchAll_oneOrMore (cls : Char → Bool) (rest : List Item) (cs : List Char) :
    matchAll cs (.oneOrMore cls :: rest) = true ↔
      ∃ pre suf, cs = pre ++ suf ∧ pre ≠ [] ∧ (∀ c ∈ pre, cls c = true) ∧
        matchAll suf rest = true := by
  induction cs with
  | nil =>
    simp only [matchAll, Bool.false_eq_true, false_iff]
    rintro ⟨pre, suf, hcs, hne, -, -⟩
    cases pre with
    | nil => exact hne rfl
    | cons a l => simp at hcs
  | cons d ds ih =>
    simp only [matchAll, Bool.and_eq_true, Bool.or_eq_true]
    constructor
    · rintro ⟨hd, h | h⟩
      · obtain ⟨pre, suf, hcs, -, hall, hm⟩ := ih.mp h
        refine ⟨d :: pre, suf, by simp [hcs], by simp, ?_, hm⟩
        intro c hc
        rcases List.mem_cons.mp hc with rfl | hc
        · exact hd
        · exact hall c hc
      · exact ⟨[d], ds, rfl, by simp, by simpa using hd, h⟩
    · rintro ⟨pre, suf, hcs, hne, hall, hm⟩
      cases pre with
      | nil => exact absurd rfl hne
      | cons a l =>
        simp only [List.cons_append, List.cons.injEq] at hcs
        obtain ⟨rfl, rfl⟩ := hcs
        refine ⟨hall d (List.mem_cons_self _ _), ?_⟩
        cases l with
        | nil => right; simpa using hm
        | cons b l2 =>
          left
          exact ih.mpr ⟨b :: l2, suf, rfl, by simp,
            fun c hc => hall c (List.mem_cons_of_mem _ hc), hm⟩

/-- The three-part shape accepted by the email pattern. -/
theorem matchAll_emailRegex (cs : List Char) :
    matchAll cs emailRegex = true ↔
      ∃ p1 p2 p3, cs = p1 ++ '@' :: (p2 ++ '.' :: p3) ∧ p1 ≠ [] ∧ p2 ≠ [] ∧ p3 ≠ [] ∧
        (∀ c ∈ p1, notSpaceNorAt c = true) ∧ (∀ c ∈ p2, notSpaceNorAt c = true) ∧
        (∀ c ∈ p3, notSpaceNorAt c = true) := by
  unfold emailRegex
  constructor
  · intro h
    obtain ⟨p1, r1, rfl, hp1, ha1, h⟩ := (matchAll_oneOrMore _ _ _).mp h
    obtain ⟨r2, rfl, h⟩ := (matchAll_lit _ _ _).mp h
    obtain ⟨p2, r3, rfl, hp2, ha2, h⟩ := (matchAll_oneOrMore _ _ _).mp h
    obtain ⟨r4, rfl, h⟩ := (matchAll_lit _ _ _).mp h
    obtain ⟨p3, r5, rfl, hp3, ha3, h⟩ := (matchAll_oneOrMore _ _ _).mp h
    have : r5 = [] := (matchAll_nil r5).mp h
    subst this
    exact ⟨p1, p2, p3, by simp, hp1, hp2, hp3, ha1, ha2, ha3⟩
  · rintro ⟨p1, p2, p3, rfl, hp1, hp2, hp3, ha1, ha2, ha3⟩
    refine (matchAll_oneOrMore _ _ _).mpr ⟨p1, _, rfl, hp1, ha1, ?_⟩
    refine (matchAll_lit _ _ _).mpr ⟨_, rfl, ?_⟩
    refine (matchAll_oneOrMore _ _ _).mpr ⟨p2, _, rfl, hp2, ha2, ?_⟩
    refine (matchAll_lit _ _ _).mpr ⟨_, rfl, ?_⟩
    exact (matchAll_oneOrMore _ _ _).mpr ⟨p3, [], by simp, hp3, ha3, rfl⟩

theorem notSpaceNorAt_iff (c : Char) :
    notSpaceNorAt c = true ↔ isWhiteSpace c = false ∧ c ≠ '@' := by
  simp [notSpaceNorAt]

theorem count_at_eq_zero (l : List Char) (h : ∀ c ∈ l, notSpaceNorAt c = true) :
    l.count '@' = 0 := by
  rw [List.count_eq_zero]
  intro hmem
  have := ((notSpaceNorAt_iff _).mp (h _ hmem)).2
  exact this rfl

theorem jsTrim_ne_nil (str : String) (hne : str.toList ≠ [])
    (hall : ∀ c ∈ str.toList, isWhiteSpace c = false) : jsTrim str ≠ [] := by
  have keep : ∀ l : List Char, l ≠ [] → (∀ c ∈ l, isWhiteSpace c = false) →
      l.dropWhile isWhiteSpace = l := by
    intro l hl hal
    cases l with
    | nil => exact absurd rfl hl
    | cons a t => simp [List.dropWhile, hal a (List.mem_cons_self _ _)]
  unfold jsTrim
  rw [keep _ hne hall]
  rw [keep _ (by simpa using hne) (by intro c hc; exact hall c (List.mem_reverse.mp hc))]
  simpa using hne

theorem falsy_some (v : String) (h : v ≠ "") : falsy (some v) = false := by
  simp [falsy, h]

theorem getUserById_users (s : Store) (us : List User) (id : Int) (h : s.file = .users us) :
    getUserById s id = (us.find? (fun user => user.id == id), s) := by
  unfold getUserById
  rw [readUsersFile_users s us h]

theorem find?_id_unknown (us : List User) (id : Int) (h : ∀ u ∈ us, u.id ≠ id) :
    us.find? (fun user => user.id == id) = none := by
  rw [List.find?_eq_none]
  intro u hu
  simpa using h u hu

theorem find?_id_known (us : List User) (id : Int) (h : ∃ u ∈ us, u.id = id) :
    ∃ v, us.find? (fun user => user.id == id) = some v := by
  cases hf : us.find? (fun user => user.id == id) with
  | some v => exact ⟨v, rfl⟩
  | none =>
    obtain ⟨u, hu, hid⟩ := h
    have := List.find?_eq_none.mp hf u hu
    simp [hid] at this

/-- What `updateUser` does on a stored collection holding `id`, the write succeeding. -/
theorem updateUser_first_match (s : Store) (us : List User) (id : Int) (d : UserData)
    (hfile : s.file = .users us) (hw : s.writable = true) (hid : ∃ u ∈ us, u.id = id) :
    ∃ l1 old l2, us = l1 ++ old :: l2 ∧ old.id = id ∧ (∀ v ∈ l1, v.id ≠ id) ∧
      updateUser s id d =
        (.ok ⟨old.id, d.nom, d.email, old.role⟩,
         ⟨.users (l1 ++ ⟨old.id, d.nom, d.email, old.role⟩ :: l2), true⟩) := by
  obtain ⟨l1, old, l2, hus, hold, hl1, hfi⟩ := findIndex_id_known us id hid
  refine ⟨l1, old, l2, hus, hold, hl1, ?_⟩
  unfold updateUser writeUsersFile
  rw [readUsersFile_users s us hfile]
  subst hus
  simp only [hfi, get?_length_append, set_length_append, hw]
  rfl

theorem createUser_unwritable (s : Store) (us : List User) (d : UserData)
    (hfile : s.file = .users us) (hw : s.writable = false) :
    createUser s d = (.error "Impossible de créer l\x27utilisateur", s) := by
  unfold createUser writeUsersFile
  rw [readUsersFile_users s us hfile]
  simp [hw]

theorem updateUser_unwritable (s : Store) (us : List User) (id : Int) (d : UserData)
    (hfile : s.file = .users us) (hw : s.writable = false) :
    updateUser s id d = (.error "Impossible de modifier l\x27utilisateur", s) := by
  unfold updateUser writeUsersFile
  rw [readUsersFile_users s us hfile]
  cases hfi : findIndex (fun user => user.id == id) us with
  | none => simp [hfi]
  | some i =>
    obtain ⟨l1, u, l2, hus, hlen, -, -⟩ := findIndex_eq_some _ us i hfi
    subst hus
    subst hlen
    simp only [hfi, get?_length_append, hw]
    rfl

theorem deleteUser_unknown (s : Store) (us : List User) (id : Int)
    (hfile : s.file = .users us) (hid : ∀ u ∈ us, u.id ≠ id) :
    deleteUser s id = (false, s) := by
  unfold deleteUser
  rw [readUsersFile_users s us hfile]
  simp [findIndex_id_unknown us id hid]

theorem deleteUser_unwritable (s : Store) (us : List User) (id : Int)
    (hfile : s.file = .users us) (hw : s.writable = false) :
    deleteUser s id = (false, s) := by
  unfold deleteUser writeUsersFile
  rw [readUsersFile_users s us hfile]
  cases hfi : findIndex (fun user => user.id == id) us with
  | none => simp [hfi]
  | some i => simp [hfi, hw]

/-- What `deleteUser` does on a stored collection holding `id`, the write succeeding. -/
theorem deleteUser_first_match (s : Store) (us : List User) (id : Int)
    (hfile : s.file = .users us) (hw : s.writable = true) (hid : ∃ u ∈ us, u.id = id) :
    ∃ l1 u l2, us = l1 ++ u :: l2 ∧ u.id = id ∧ (∀ v ∈ l1, v.id ≠ id) ∧
      deleteUser s id = (true, ⟨.users (l1 ++ l2), true⟩) := by
  obtain ⟨l1, u, l2, hus, hu, hl1, hfi⟩ := findIndex_id_known us id hid
  refine ⟨l1, u, l2, hus, hu, hl1, ?_⟩
  unfold deleteUser writeUsersFile
  rw [readUsersFile_users s us hfile]
  subst hus
  simp only [hfi, eraseIdx_length_append, hw]
  rfl

theorem known_or_unknown (us : List User) (id : Int) :
    (∃ u ∈ us, u.id = id) ∨ (∀ u ∈ us, u.id ≠ id) := by
  by_cases h : ∃ u ∈ us, u.id = id
  · exact Or.inl h
  · exact Or.inr (fun u hu hEq => h ⟨u, hu, hEq⟩)

/-- The store a `POST` leaves: the old one, or the old collection with one record appended
whose email no stored record has. -/
theorem apiPostUser_store (s : Store) (us : List User) (body : Body)
    (hfile : s.file = .users us) :
    (apiPostUser s body).2 = s ∨
    ∃ nom email, (∀ u ∈ us, u.email ≠ email) ∧
      (apiPostUser s body).2 =
        ⟨.users (us ++ [⟨generateNewId (some us), nom, email, "utilisateur"⟩]), true⟩ := by
  by_cases hf : (falsy body.nom || falsy body.email) = true
  · left
    simp [apiPostUser, hf]
  · by_cases ht : regexTest emailRegex (body.email.getD "") = true
    · cases hfind : us.find? (fun user => user.email == body.email.getD "") with
      | some v =>
        left
        simp [apiPostUser, hf, ht, getAllUsers, readUsersFile_users s us hfile, hfind]
      | none =>
        cases hw : s.writable with
        | false =>
          left
          simp [apiPostUser, hf, ht, getAllUsers, readUsersFile_users s us hfile, hfind,
            createUser_unwritable s us _ hfile hw]
        | true =>
          right
          have hc := createUser_writable s ⟨body.nom.getD "", body.email.getD ""⟩ hw
          rw [readUsersFile_users s us hfile] at hc
          refine ⟨body.nom.getD "", body.email.getD "", ?_, ?_⟩
          · intro u hu
            simpa using List.find?_eq_none.mp hfind u hu
          · simp [apiPostUser, hf, ht, getAllUsers, readUsersFile_users s us hfile, hfind, hc]
    · left
      simp [apiPostUser, hf, ht]

/-- The store a `PUT` leaves: the old one, or the old collection with the first record
carrying the id replaced in place, its new email being carried by no other id. -/
theorem apiPutUser_store (s : Store) (us : List User) (userId : Int) (body : Body)
    (hfile : s.file = .users us) :
    (apiPutUser s userId body).2 = s ∨
    ∃ nom email l1 old l2, us = l1 ++ old :: l2 ∧ old.id = userId ∧
      (∀ v ∈ l1, v.id ≠ userId) ∧ (∀ v ∈ us, v.email = email → v.id = userId) ∧
      (apiPutUser s userId body).2 =
        ⟨.users (l1 ++ ⟨old.id, nom, email, old.role⟩ :: l2), true⟩ := by
  by_cases hf : (falsy body.nom || falsy body.email) = true
  · left
    simp [apiPutUser, hf]
  · by_cases ht : regexTest emailRegex (body.email.getD "") = true
    · rcases known_or_unknown us userId with hid | hid
      · obtain ⟨w, hw1⟩ := find?_id_known us userId hid
        cases hfind : us.find?
            (fun user => user.email == body.email.getD "" && user.id != userId) with
        | some v =>
          left
          simp [apiPutUser, hf, ht, getUserById_users s us userId hfile, hw1, getAllUsers,
            readUsersFile_users s us hfile, hfind]
        | none =>
          cases hw : s.writable with
          | false =>
            left
            simp [apiPutUser, hf, ht, getUserById_users s us userId hfile, hw1, getAllUsers,
              readUsersFile_users s us hfile, hfind, updateUser_unwritable s us _ _ hfile hw]
          | true =>
            right
            obtain ⟨l1, old, l2, hus, hold, hl1, hupd⟩ :=
              updateUser_first_match s us userId ⟨body.nom.getD "", body.email.getD ""⟩
                hfile hw hid
            refine ⟨body.nom.getD "", body.email.getD "", l1, old, l2, hus, hold, hl1, ?_, ?_⟩
            · intro v hv hve
              have := List.find?_eq_none.mp hfind v hv
              simpa [hve] using this
            · simp [apiPutUser, hf, ht, getUserById_users s us userId hfile, hw1, getAllUsers,
                readUsersFile_users s us hfile, hfind, hupd]
      · left
        simp [apiPutUser, hf, ht, getUserById_users s us userId hfile,
          find?_id_unknown us userId hid]
    · left
      simp [apiPutUser, hf, ht]

/-- The store a `DELETE` leaves: the old one, or the old collection without the first
record carrying the id. -/
theorem apiDeleteUser_store (s : Store) (us : List User) (userId : Int)
    (hfile : s.file = .users us) :
    (apiDeleteUser s userId).2 = s ∨
    ∃ l1 u l2, us = l1 ++ u :: l2 ∧ u.id = userId ∧ (∀ v ∈ l1, v.id ≠ userId) ∧
      (apiDeleteUser s userId).2 = ⟨.users (l1 ++ l2), true⟩ := by
  rcases known_or_unknown us userId with hid | hid
  · obtain ⟨w, hw1⟩ := find?_id_known us userId hid
    cases hw : s.writable with
    | false =>
      left
      simp [apiDeleteUser, getUserById_users s us userId hfile, hw1,
        deleteUser_unwritable s us userId hfile hw]
    | true =>
      right
      obtain ⟨l1, u, l2, hus, hu, hl1, hdel⟩ := deleteUser_first_match s us userId hfile hw hid
      exact ⟨l1, u, l2, hus, hu, hl1, by
        simp [apiDeleteUser, getUserById_users s us userId hfile, hw1, hdel]⟩
  · left
    simp [apiDeleteUser, getUserById_users s us userId hfile, find?_id_unknown us userId hid]

theorem idsDistinct_append_new (us : List User) (r : User) (h : idsDistinct us)
    (hr : ∀ u ∈ us, u.id < r.id) : idsDistinct (us ++ [r]) := by
  unfold idsDistinct at *
  rw [List.pairwise_append]
  refine ⟨h, List.pairwise_singleton _ _, ?_⟩
  intro a ha b hb
  rw [List.mem_singleton] at hb
  subst hb
  exact ne_of_lt (hr a ha)

theorem emailsDistinct_append_new (us : List User) (r : User) (h : emailsDistinct us)
    (hr : ∀ u ∈ us, u.email ≠ r.email) : emailsDistinct (us ++ [r]) := by
  unfold emailsDistinct at *
  rw [List.pairwise_append]
  refine ⟨h, List.pairwise_singleton _ _, ?_⟩
  intro a ha b hb
  rw [List.mem_singleton] at hb
  subst hb
  exact hr a ha

theorem idsDistinct_erase (l1 l2 : List User) (u : User) (h : idsDistinct (l1 ++ u :: l2)) :
    idsDistinct (l1 ++ l2) := by
  unfold idsDistinct at *
  exact h.sublist (List.Sublist.append_left (List.sublist_cons_self u l2) l1)

theorem emailsDistinct_erase (l1 l2 : List User) (u : User)
    (h : emailsDistinct (l1 ++ u :: l2)) : emailsDistinct (l1 ++ l2) := by
  unfold emailsDistinct at *
  exact h.sublist (List.Sublist.append_left (List.sublist_cons_self u l2) l1)

/-- With distinct ids, once the record carrying `u.id` is gone no record carries that id. -/
theorem idsDistinct_erase_unknown (l1 l2 : List User) (u : User)
    (h : idsDistinct (l1 ++ u :: l2)) : ∀ v ∈ l1 ++ l2, v.id ≠ u.id := by
  unfold idsDistinct at h
  rw [List.pairwise_append, List.pairwise_cons] at h
  obtain ⟨-, ⟨hu2, -⟩, h12⟩ := h
  intro v hv
  rcases List.mem_append.mp hv with hv | hv
  · exact h12 v hv u (List.mem_cons_self _ _)
  · exact fun hEq => hu2 v hv hEq.symm

theorem idsDistinct_replace (l1 l2 : List User) (old new : User) (hid : new.id = old.id)
    (h : idsDistinct (l1 ++ old :: l2)) : idsDistinct (l1 ++ new :: l2) := by
  unfold idsDistinct at *
  rw [List.pairwise_append, List.pairwise_cons] at *
  obtain ⟨h1, ⟨hu2, h2⟩, h12⟩ := h
  refine ⟨h1, ⟨fun v hv => by rw [hid]; exact hu2 v hv, h2⟩, ?_⟩
  intro a ha b hb
  rcases List.mem_cons.mp hb with rfl | hb
  · rw [hid]; exact h12 a ha old (List.mem_cons_self _ _)
  · exact h12 a ha b (List.mem_cons_of_mem _ hb)

theorem emailsDistinct_replace (l1 l2 : List User) (old new : User)
    (hnew : ∀ v ∈ l1 ++ l2, v.email ≠ new.email)
    (h : emailsDistinct (l1 ++ old :: l2)) : emailsDistinct (l1 ++ new :: l2) := by
  unfold emailsDistinct at *
  rw [List.pairwise_append, List.pairwise_cons] at *
  obtain ⟨h1, ⟨-, h2⟩, h12⟩ := h
  refine ⟨h1, ⟨fun v hv hEq => hnew v (List.mem_append_right _ hv) hEq.symm, h2⟩, ?_⟩
  intro a ha b hb
  rcases List.mem_cons.mp hb with rfl | hb
  · exact hnew a (List.mem_append_left _ ha)
  · exact h12 a ha b (List.mem_cons_of_mem _ hb)

/-- One request keeps ids and emails pairwise distinct, whatever it answers. -/
theorem apiStep_keeps_distinct (s : Store) (us : List User) (op : ApiOp)
    (hfile : s.file = .users us) (hids : idsDistinct us) (hemails : emailsDistinct us) :
    ∃ us2, (apiStep s op).2.file = .users us2 ∧ idsDistinct us2 ∧ emailsDistinct us2 := by
  cases op with
  | post body =>
    rcases apiPostUser_store s us body hfile with h | ⟨nom, email, hno, h⟩
    · exact ⟨us, by simp [apiStep, h, hfile], hids, hemails⟩
    · refine ⟨_, by simp only [apiStep]; rw [h], ?_, ?_⟩
      · exact idsDistinct_append_new us _ hids (lt_generateNewId us)
      · exact emailsDistinct_append_new us _ hemails hno
  | put userId body =>
    rcases apiPutUser_store s us userId body hfile with
      h | ⟨nom, email, l1, old, l2, hus, hold, hl1, hno, h⟩
    · exact ⟨us, by simp [apiStep, h, hfile], hids, hemails⟩
    · subst hus
      refine ⟨_, by simp only [apiStep]; rw [h], ?_, ?_⟩
      · exact idsDistinct_replace l1 l2 old _ rfl hids
      · refine emailsDistinct_replace l1 l2 old _ ?_ hemails
        intro v hv hve
        have hvid : v.id = userId := hno v (by
          rcases List.mem_append.mp hv with hv | hv
          · exact List.mem_append_left _ hv
          · exact List.mem_append_right _ (List.mem_cons_of_mem _ hv)) hve
        exact idsDistinct_erase_unknown l1 l2 old hids v hv (by rw [hvid, hold])
  | delete userId =>
    rcases apiDeleteUser_store s us userId hfile with h | ⟨l1, u, l2, hus, -, -, h⟩
    · exact ⟨us, by simp [apiStep, h, hfile], hids, hemails⟩
    · subst hus
      exact ⟨_, by simp only [apiStep]; rw [h], idsDistinct_erase l1 l2 u hids,
        emailsDistinct_erase l1 l2 u hemails⟩

theorem getUserByIdTry_records (id : Int) (us : List User) :
    getUserByIdTry id (us.map Elem.record) = .ok (us.find? (fun user => user.id == id)) := by
  induction us with
  | nil => rfl
  | cons u rest ih =>
    cases hu : u.id == id <;> simp [getUserByIdTry, List.find?, hu, ih]

/-! ## The claims -/

/-- C4: on a stored collection in which no record carries `id`, `updateUser(id, data)`
raises, whether or not the file can be written, and leaves the store exactly as it was. -/
theorem updateUser_unknown_id (s : Store) (us : List User) (id : Int) (d : UserData)
    (hfile : s.file = .users us) (hid : ∀ u ∈ us, u.id ≠ id) :
    updateUser s id d = (.error "Impossible de modifier l\x27utilisateur", s) := by
  unfold updateUser
  rw [readUsersFile_users s us hfile]
  simp [findIndex_id_unknown us id hid]

theorem updateUser_unknown_id_witness :
    updateUser ⟨.users defaultUsers, true⟩ 99 ⟨"Ana", "ana@x.com"⟩ =
      (.error "Impossible de modifier l\x27utilisateur", ⟨.users defaultUsers, true⟩) :=
  updateUser_unknown_id ⟨.users defaultUsers, true⟩ defaultUsers 99 ⟨"Ana", "ana@x.com"⟩ rfl
    (by decide)

/-- C6: on a stored collection in which some record carries `id`, with the write
succeeding, `updateUser(id, {nom, email})` returns the first record carrying `id` with
`nom` and `email` replaced and `id` and `role` kept, and the stored collection becomes
the old one with that record replaced in place. -/
theorem updateUser_known_id (s : Store) (us : List User) (id : Int) (d : UserData)
    (hfile : s.file = .users us) (hw : s.writable = true) (hid : ∃ u ∈ us, u.id = id) :
    ∃ l1 old l2, us = l1 ++ old :: l2 ∧ old.id = id ∧ (∀ v ∈ l1, v.id ≠ id) ∧
      updateUser s id d =
        (.ok ⟨old.id, d.nom, d.email, old.role⟩,
         ⟨.users (l1 ++ ⟨old.id, d.nom, d.email, old.role⟩ :: l2), true⟩) :=
  updateUser_first_match s us id d hfile hw hid

theorem updateUser_known_id_witness :
    ∃ l1 old l2, defaultUsers = l1 ++ old :: l2 ∧ old.id = 3 ∧ (∀ v ∈ l1, v.id ≠ 3) ∧
      updateUser ⟨.users defaultUsers, true⟩ 3 ⟨"Ana", "ana@x.com"⟩ =
        (.ok ⟨old.id, "Ana", "ana@x.com", old.role⟩,
         ⟨.users (l1 ++ ⟨old.id, "Ana", "ana@x.com", old.role⟩ :: l2), true⟩) :=
  updateUser_known_id ⟨.users defaultUsers, true⟩ defaultUsers 3 ⟨"Ana", "ana@x.com"⟩ rfl rfl
    ⟨⟨3, "Pierre Durand", "pierre.durand@email.com", "utilisateur"⟩, by decide, rfl⟩

/-- C7: on a stored collection, with the write succeeding, `deleteUser(id)` returns
`true` exactly when some record carries `id`; when none does it returns `false` and leaves
the store as it was; when one does, the stored collection becomes the old one without the
first record carrying `id`, the others kept in order. -/
theorem deleteUser_correct (s : Store) (us : List User) (id : Int)
    (hfile : s.file = .users us) (hw : s.writable = true) :
    ((deleteUser s id).1 = true ↔ ∃ u ∈ us, u.id = id) ∧
    ((∀ u ∈ us, u.id ≠ id) → deleteUser s id = (false, s)) ∧
    ((∃ u ∈ us, u.id = id) →
      ∃ l1 u l2, us = l1 ++ u :: l2 ∧ u.id = id ∧ (∀ v ∈ l1, v.id ≠ id) ∧
        deleteUser s id = (true, ⟨.users (l1 ++ l2), true⟩)) := by
  have hnone : (∀ u ∈ us, u.id ≠ id) → deleteUser s id = (false, s) := by
    intro hid
    unfold deleteUser
    rw [readUsersFile_users s us hfile]
    simp [findIndex_id_unknown us id hid]
  have hsome : (∃ u ∈ us, u.id = id) →
      ∃ l1 u l2, us = l1 ++ u :: l2 ∧ u.id = id ∧ (∀ v ∈ l1, v.id ≠ id) ∧
        deleteUser s id = (true, ⟨.users (l1 ++ l2), true⟩) := by
    intro hid
    obtain ⟨l1, u, l2, hus, hu, hl1, hfi⟩ := findIndex_id_known us id hid
    refine ⟨l1, u, l2, hus, hu, hl1, ?_⟩
    unfold deleteUser writeUsersFile
    rw [readUsersFile_users s us hfile]
    simp only [hfi, hw]
    subst hus
    simp [eraseIdx_length_append]
  refine ⟨⟨?_, ?_⟩, hnone, hsome⟩
  · intro htrue
    by_contra hno
    have hid : ∀ u ∈ us, u.id ≠ id := fun u hu hEq => hno ⟨u, hu, hEq⟩
    rw [hnone hid] at htrue
    exact Bool.false_ne_true htrue
  · intro hid
    obtain ⟨l1, u, l2, -, -, -, hdel⟩ := hsome hid
    rw [hdel]

theorem deleteUser_correct_witness :
    ((deleteUser ⟨.users defaultUsers, true⟩ 3).1 = true ↔ ∃ u ∈ defaultUsers, u.id = 3) ∧
    ((∀ u ∈ defaultUsers, u.id ≠ 3) →
      deleteUser ⟨.users defaultUsers, true⟩ 3 = (false, ⟨.users defaultUsers, true⟩)) ∧
    ((∃ u ∈ defaultUsers, u.id = 3) →
      ∃ l1 u l2, defaultUsers = l1 ++ u :: l2 ∧ u.id = 3 ∧ (∀ v ∈ l1, v.id ≠ 3) ∧
        deleteUser ⟨.users defaultUsers, true⟩ 3 = (true, ⟨.users (l1 ++ l2), true⟩)) :=
  deleteUser_correct ⟨.users defaultUsers, true⟩ defaultUsers 3 rfl rfl

/-- C5, as the code has it: an unknown id and a failed write make `updateUser` raise one
and the same error, the message set by its `catch` block. -/
theorem updateUser_failures_same_error (s1 s2 : Store) (us1 us2 : List User) (id1 id2 : Int)
    (d1 d2 : UserData)
    (hfile1 : s1.file = .users us1) (hid1 : ∀ u ∈ us1, u.id ≠ id1)
    (hfile2 : s2.file = .users us2) (hid2 : ∃ u ∈ us2, u.id = id2)
    (hw2 : s2.writable = false) :
    (updateUser s1 id1 d1).1 = .error "Impossible de modifier l\x27utilisateur" ∧
    (updateUser s2 id2 d2).1 = .error "Impossible de modifier l\x27utilisateur" := by
  constructor
  · unfold updateUser
    rw [readUsersFile_users s1 us1 hfile1]
    simp [findIndex_id_unknown us1 id1 hid1]
  · obtain ⟨l1, old, l2, hus, -, -, hfi⟩ := findIndex_id_known us2 id2 hid2
    unfold updateUser writeUsersFile
    rw [readUsersFile_users s2 us2 hfile2]
    subst hus
    simp only [hfi, get?_length_append, hw2]
    rfl

theorem updateUser_failures_same_error_witness :
    (updateUser ⟨.users defaultUsers, true⟩ 99 ⟨"Ana", "ana@x.com"⟩).1 =
      .error "Impossible de modifier l\x27utilisateur" ∧
    (updateUser ⟨.users defaultUsers, false⟩ 3 ⟨"Ana", "ana@x.com"⟩).1 =
      .error "Impossible de modifier l\x27utilisateur" :=
  updateUser_failures_same_error ⟨.users defaultUsers, true⟩ ⟨.users defaultUsers, false⟩
    defaultUsers defaultUsers 99 3 ⟨"Ana", "ana@x.com"⟩ ⟨"Ana", "ana@x.com"⟩
    rfl (by decide) rfl ⟨⟨3, "Pierre Durand", "pierre.durand@email.com", "utilisateur"⟩,
      by decide, rfl⟩ rfl

/-- C5 fails as stated: no record of the seed collection carries id 99, record 3 exists
and the file cannot be written, and yet both calls raise equal errors. -/
theorem updateUser_errors_not_distinct :
    (∀ u ∈ defaultUsers, u.id ≠ 99) ∧ (∃ u ∈ defaultUsers, u.id = 3) ∧
    ¬ ((updateUser ⟨.users defaultUsers, true⟩ 99 ⟨"Ana", "ana@x.com"⟩).1 ≠
       (updateUser ⟨.users defaultUsers, false⟩ 3 ⟨"Ana", "ana@x.com"⟩).1) := by
  refine ⟨by decide, by decide, ?_⟩
  intro h
  exact h rfl

/-- C10: the email pattern accepts a string exactly when it has no white-space character,
exactly one `@`, a non-empty part before the `@`, and after it a part holding a `.` that is
neither its first nor its last character; the empty string is rejected, and the check of
`validateField` on an email input accepts the same strings. -/
theorem emailRegex_accepts_iff (str : String) :
    (regexTest emailRegex str = true ↔
      (∀ c ∈ str.toList, isWhiteSpace c = false) ∧ str.toList.count '@' = 1 ∧
      ∃ loc dom, str.toList = loc ++ '@' :: dom ∧ loc ≠ [] ∧
        ∃ d1 d2, dom = d1 ++ '.' :: d2 ∧ d1 ≠ [] ∧ d2 ≠ []) ∧
    regexTest emailRegex "" = false ∧
    validateFieldEmail str = regexTest emailRegex str := by
  have hiff : regexTest emailRegex str = true ↔
      (∀ c ∈ str.toList, isWhiteSpace c = false) ∧ str.toList.count '@' = 1 ∧
      ∃ loc dom, str.toList = loc ++ '@' :: dom ∧ loc ≠ [] ∧
        ∃ d1 d2, dom = d1 ++ '.' :: d2 ∧ d1 ≠ [] ∧ d2 ≠ [] := by
    unfold regexTest
    rw [matchAll_emailRegex]
    constructor
    · rintro ⟨p1, p2, p3, hcs, hp1, hp2, hp3, ha1, ha2, ha3⟩
      refine ⟨?_, ?_, p1, _, hcs, hp1, p2, p3, rfl, hp2, hp3⟩
      · intro c hc
        rw [hcs] at hc
        simp only [List.mem_append, List.mem_cons] at hc
        rcases hc with hc | rfl | hc | rfl | hc
        · exact ((notSpaceNorAt_iff c).mp (ha1 c hc)).1
        · decide
        · exact ((notSpaceNorAt_iff c).mp (ha2 c hc)).1
        · decide
        · exact ((notSpaceNorAt_iff c).mp (ha3 c hc)).1
      · rw [hcs]
        simp [List.count_append, List.count_cons, count_at_eq_zero p1 ha1,
          count_at_eq_zero p2 ha2, count_at_eq_zero p3 ha3]
    · rintro ⟨hws, hcount, loc, dom, hcs, hloc, d1, d2, rfl, hd1, hd2⟩
      refine ⟨loc, d1, d2, hcs, hloc, hd1, hd2, ?_⟩
      rw [hcs] at hcount hws
      simp only [List.count_append, List.count_cons, beq_self_eq_true, if_true] at hcount
      have hdot : ('.' == '@') = false := by decide
      simp only [hdot, Bool.false_eq_true, if_false] at hcount
      have h1 : loc.count '@' = 0 := by omega
      have h2 : d1.count '@' = 0 := by omega
      have h3 : d2.count '@' = 0 := by omega
      rw [List.count_eq_zero] at h1 h2 h3
      refine ⟨?_, ?_, ?_⟩ <;> intro c hc <;> rw [notSpaceNorAt_iff] <;> constructor
      · exact hws c (by simp [hc])
      · rintro rfl; exact h1 hc
      · exact hws c (by simp [hc])
      · rintro rfl; exact h2 hc
      · exact hws c (by simp [hc])
      · rintro rfl; exact h3 hc
  refine ⟨hiff, by decide, ?_⟩
  unfold validateFieldEmail
  cases ht : regexTest emailRegex str
  · simp
  · obtain ⟨hws, -, loc, dom, hcs, hloc, -⟩ := hiff.mp ht
    have hne : str.toList ≠ [] := by
      rw [hcs]; simp
    have := jsTrim_ne_nil str hne hws
    simp [this]

/-- C12: two `POST` bodies with the same `nom` and `email` get the same answer and leave
the same store, whatever else they carry, and a created record always has the role
`utilisateur`. -/
theorem apiPostUser_role_fixed (s : Store) (b1 b2 : Body)
    (hnom : b1.nom = b2.nom) (hemail : b1.email = b2.email) :
    apiPostUser s b1 = apiPostUser s b2 ∧
    ∀ u, (apiPostUser s b1).1.body = .user u → u.role = "utilisateur" := by
  constructor
  · simp only [apiPostUser, hnom, hemail]
  · intro u h
    rcases hr : readUsersFile s with ⟨us, s1⟩
    by_cases hf : (falsy b1.nom || falsy b1.email) = true
    · simp [apiPostUser, hf] at h
    · by_cases ht : regexTest emailRegex (b1.email.getD "") = true
      · cases hfind : us.find? (fun user => user.email == b1.email.getD "") with
        | some v => simp [apiPostUser, hf, ht, getAllUsers, hr, hfind] at h
        | none =>
          rcases hc : createUser s1 ⟨b1.nom.getD "", b1.email.getD ""⟩ with ⟨res, s2⟩
          cases res with
          | error e => simp [apiPostUser, hf, ht, getAllUsers, hr, hfind, hc] at h
          | ok r =>
            simp [apiPostUser, hf, ht, getAllUsers, hr, hfind, hc] at h
            subst h
            rw [(createUser_ok s1 _ r s2 hc).1]
      · simp [apiPostUser, hf, ht] at h

theorem apiPostUser_role_fixed_witness :
    apiPostUser ⟨.users [], true⟩ ⟨some "Ana", some "ana@x.com", []⟩ =
      apiPostUser ⟨.users [], true⟩ ⟨some "Ana", some "ana@x.com", [("role", "admin")]⟩ ∧
    ∀ u, (apiPostUser ⟨.users [], true⟩ ⟨some "Ana", some "ana@x.com", []⟩).1.body = .user u →
      u.role = "utilisateur" :=
  apiPostUser_role_fixed ⟨.users [], true⟩ ⟨some "Ana", some "ana@x.com", []⟩
    ⟨some "Ana", some "ana@x.com", [("role", "admin")]⟩ rfl rfl

/-- C13, as the code has it: on a missing file, when the write succeeds, `readUsersFile`
returns the ten seed users and leaves a file holding exactly them; when the write fails it
returns the empty sequence and the file stays missing; an existing empty file is not
seeded: the empty sequence is returned and the file is left as it is. -/
theorem readUsersFile_missing (s : Store) (hfile : s.file = .missing) :
    (s.writable = true →
      readUsersFile s = (defaultUsers, ⟨.users defaultUsers, true⟩) ∧
      defaultUsers.length = 10) ∧
    (s.writable = false → readUsersFile s = ([], s)) ∧
    (∀ w, readUsersFile ⟨emptyFile, w⟩ = ([], ⟨emptyFile, w⟩)) := by
  refine ⟨?_, ?_, ?_⟩
  · intro hw
    refine ⟨?_, rfl⟩
    simp [readUsersFile, readUsersFileTry, writeUsersFile, hfile, hw]
  · intro hw
    simp [readUsersFile, readUsersFileTry, writeUsersFile, hfile, hw]
  · intro w
    rfl

theorem readUsersFile_missing_witness :
    readUsersFile ⟨.missing, true⟩ = (defaultUsers, ⟨.users defaultUsers, true⟩) ∧
      defaultUsers.length = 10 :=
  (readUsersFile_missing ⟨.missing, true⟩ rfl).1 rfl

/-- C13 fails as stated: on an existing empty file `readUsersFile` returns the empty
sequence, not the seed users, and the file does not hold the seed users afterwards. -/
theorem readUsersFile_emptyFile_not_seeded :
    (readUsersFile ⟨emptyFile, true⟩).1 = [] ∧
    (readUsersFile ⟨emptyFile, true⟩).1 ≠ defaultUsers ∧
    (readUsersFile ⟨emptyFile, true⟩).2.file ≠ .users defaultUsers := by
  decide

/-- C15: on a stored collection whose file cannot be written, `createUser` raises and
`updateUser` on a known id raises, `POST` and `PUT` answering 500, whereas `deleteUser` on
a known id returns `false` without raising, `DELETE` answering 500; the store is left as it
was in every case. -/
theorem write_failure_outcomes (s : Store) (us : List User)
    (hfile : s.file = .users us) (hw : s.writable = false) :
    (∀ d, createUser s d = (.error "Impossible de créer l\x27utilisateur", s)) ∧
    (∀ id d, (∃ u ∈ us, u.id = id) →
      updateUser s id d = (.error "Impossible de modifier l\x27utilisateur", s)) ∧
    (∀ id, (∃ u ∈ us, u.id = id) → deleteUser s id = (false, s)) ∧
    (∀ nom email others, nom ≠ "" → email ≠ "" → regexTest emailRegex email = true →
      (∀ u ∈ us, u.email ≠ email) →
      apiPostUser s ⟨some nom, some email, others⟩ =
        (⟨500, .message "Erreur interne du serveur"⟩, s)) ∧
    (∀ id nom email others, nom ≠ "" → email ≠ "" → regexTest emailRegex email = true →
      (∃ u ∈ us, u.id = id) → (∀ v ∈ us, v.email = email → v.id = id) →
      apiPutUser s id ⟨some nom, some email, others⟩ =
        (⟨500, .message "Erreur interne du serveur"⟩, s)) ∧
    (∀ id, (∃ u ∈ us, u.id = id) →
      apiDeleteUser s id = (⟨500, .message "Erreur lors de la suppression"⟩, s)) := by
  refine ⟨fun d => createUser_unwritable s us d hfile hw,
    fun id d _ => updateUser_unwritable s us id d hfile hw,
    fun id _ => deleteUser_unwritable s us id hfile hw, ?_, ?_, ?_⟩
  · intro nom email others hn he ht hno
    have hfind : us.find? (fun user => user.email == email) = none := by
      rw [List.find?_eq_none]
      intro u hu
      simpa using hno u hu
    simp [apiPostUser, falsy_some nom hn, falsy_some email he, ht, getAllUsers,
      readUsersFile_users s us hfile, hfind, createUser_unwritable s us _ hfile hw]
  · intro id nom email others hn he ht hid hno
    obtain ⟨w, hw1⟩ := find?_id_known us id hid
    have hfind : us.find? (fun user => user.email == email && user.id != id) = none := by
      rw [List.find?_eq_none]
      intro v hv
      by_cases hve : v.email = email
      · simp [hve, hno v hv hve]
      · simp [hve]
    simp [apiPutUser, falsy_some nom hn, falsy_some email he, ht,
      getUserById_users s us id hfile, hw1, getAllUsers, readUsersFile_users s us hfile,
      hfind, updateUser_unwritable s us _ _ hfile hw]
  · intro id hid
    obtain ⟨w, hw1⟩ := find?_id_known us id hid
    simp [apiDeleteUser, getUserById_users s us id hfile, hw1,
      deleteUser_unwritable s us id hfile hw]

theorem write_failure_outcomes_witness :
    createUser ⟨.users defaultUsers, false⟩ ⟨"Ana", "ana@x.com"⟩ =
      (.error "Impossible de créer l\x27utilisateur", ⟨.users defaultUsers, false⟩) ∧
    apiDeleteUser ⟨.users defaultUsers, false⟩ 3 =
      (⟨500, .message "Erreur lors de la suppression"⟩, ⟨.users defaultUsers, false⟩) :=
  ⟨(write_failure_outcomes ⟨.users defaultUsers, false⟩ defaultUsers rfl rfl).1
      ⟨"Ana", "ana@x.com"⟩,
    (write_failure_outcomes ⟨.users defaultUsers, false⟩ defaultUsers rfl rfl).2.2.2.2.2 3
      ⟨⟨3, "Pierre Durand", "pierre.durand@email.com", "utilisateur"⟩, by decide, rfl⟩⟩

/-- C16: on a stored collection with pairwise distinct ids, the write succeeding,
`DELETE /api/users/{id}` for an id some record carries answers 200, and a `GET` of the same
id on the store it leaves answers 404. -/
theorem apiDeleteUser_then_get (s : Store) (us : List User) (userId : Int)
    (hfile : s.file = .users us) (hw : s.writable = true) (hids : idsDistinct us)
    (hid : ∃ u ∈ us, u.id = userId) :
    (apiDeleteUser s userId).1.status = 200 ∧
    (apiGetUser (apiDeleteUser s userId).2 userId).1.status = 404 := by
  obtain ⟨w, hw1⟩ := find?_id_known us userId hid
  obtain ⟨l1, u, l2, hus, hu, -, hdel⟩ := deleteUser_first_match s us userId hfile hw hid
  have hres : apiDeleteUser s userId =
      (⟨200, .message "Utilisateur supprimé avec succès"⟩, ⟨.users (l1 ++ l2), true⟩) := by
    simp [apiDeleteUser, getUserById_users s us userId hfile, hw1, hdel]
  subst hus
  have hgone : ∀ v ∈ l1 ++ l2, v.id ≠ userId := by
    intro v hv
    rw [← hu]
    exact idsDistinct_erase_unknown l1 l2 u hids v hv
  rw [hres]
  refine ⟨rfl, ?_⟩
  simp [apiGetUser, getUserById_users ⟨.users (l1 ++ l2), true⟩ (l1 ++ l2) userId rfl,
    find?_id_unknown (l1 ++ l2) userId hgone]

theorem apiDeleteUser_then_get_witness :
    (apiDeleteUser ⟨.users defaultUsers, true⟩ 3).1.status = 200 ∧
    (apiGetUser (apiDeleteUser ⟨.users defaultUsers, true⟩ 3).2 3).1.status = 404 :=
  apiDeleteUser_then_get ⟨.users defaultUsers, true⟩ defaultUsers 3 rfl rfl (by decide)
    ⟨⟨3, "Pierre Durand", "pierre.durand@email.com", "utilisateur"⟩, by decide, rfl⟩

/-- C17, as the code has it: in a user card the name, the email and the role shown as text
are the values inserted through `escapeHtml`, for every record; the id is inserted in the
inline handlers as it is. -/
theorem createUserCard_escaped (toLowerCase : String → String) (user : User) :
    escapedValues (createUserCard toLowerCase user) = [user.nom, user.email, user.role] ∧
    Piece.plain (toString user.id) ∈ createUserCard toLowerCase user := by
  constructor
  · rfl
  · simp [createUserCard]

/-- C17 fails as stated: the card of the first seed user inserts values that do not go
through `escapeHtml`, the lower-cased role in the `class` attribute among them. -/
theorem createUserCard_plain_insertions :
    Piece.plain (String.toLower "admin") ∈
      createUserCard String.toLower ⟨1, "Jean Dupont", "jean.dupont@email.com", "admin"⟩ ∧
    plainValues
      (createUserCard String.toLower ⟨1, "Jean Dupont", "jean.dupont@email.com", "admin"⟩) ≠
      [] := by
  constructor
  · simp [createUserCard]
  · simp [createUserCard, plainValues]

/-- C18: ids are reused: deleting the record with the highest id of the seed collection
(id 10), which keeps the records with lower ids, and then creating a user gives the new
record id 10 again. -/
theorem generateNewId_reuses_deleted_id :
    (∀ u ∈ defaultUsers, u.id ≤ 10) ∧
    (deleteUser ⟨.users defaultUsers, true⟩ 10).1 = true ∧
    (∃ u ∈ (readUsersFile (deleteUser ⟨.users defaultUsers, true⟩ 10).2).1, u.id < 10) ∧
    (∀ u ∈ (readUsersFile (deleteUser ⟨.users defaultUsers, true⟩ 10).2).1, u.id ≠ 10) ∧
    (createUser (deleteUser ⟨.users defaultUsers, true⟩ 10).2 ⟨"Ana", "ana@x.com"⟩).1 =
      .ok ⟨10, "Ana", "ana@x.com", "utilisateur"⟩ := by
  refine ⟨by decide, by decide, by decide, by decide, rfl⟩

end UsersGestion
